import Mathlib

/-!
Shallow embedding of the decision-and-publish pipeline of the guudboi bot
(src/core/bot.py, src/clients/openai_client.py, src/clients/x_client.py,
src/clients/perplexity_client.py), together with theorems settling the
specification claims about it.

Modelling conventions:
* An oracle (OpenAI / Perplexity chat completion) call is modelled by its
  outcome, an `Option String`: `none` means the call raised an exception,
  `some raw` means it returned the message content `raw`.  Retry loops that
  issue one oracle call per attempt take a function `Nat → Option String`
  giving the outcome of the call made on each attempt index.
* Python `str.strip()` is `pyStrip`, `str.split(sep)` is `pySplit` (same
  leftmost non-overlapping semantics), `str.lower()` is `pyLower`, and
  `s.split(sep)[i]` raising `IndexError` is modelled by
  `(pySplit s sep)[i]?` being `none`, the surrounding `try/except` turning
  that into the attempt's failure.
* Platform tweet-creation calls (`tweepy.Client.create_tweet`) are modelled
  by an environment `Nat → Option String`: attempt `k` (counted globally in
  the order the calls are issued) either raises (`none`) or succeeds and the
  platform assigns the string identifier `id` (`some id`).  Every call issued
  is recorded in a trace of `TweetCall` values.
* `time.sleep` is not modelled except for whether the scheduler's
  end-of-cycle sleep statement is reached (`CycleResult.slept`).
-/

/-- Python `str.strip()` on a list of characters: drop whitespace from both
ends. -/
def stripChars (l : List Char) : List Char :=
  ((l.dropWhile Char.isWhitespace).reverse.dropWhile Char.isWhitespace).reverse

/-- Python `str.strip()`. -/
def pyStrip (s : String) : String :=
  String.mk (stripChars s.toList)

/-- The part of `l` before the leftmost occurrence of `sep`, and the part
after it (`none` when `sep` does not occur in `l`). -/
def splitFirst (sep : List Char) : List Char → Option (List Char × List Char)
  | [] => none
  | c :: rest =>
    if sep.isPrefixOf (c :: rest) then some ([], (c :: rest).drop sep.length)
    else (splitFirst sep rest).map (fun p => (c :: p.1, p.2))

/-- Python `str.split(sep)` on lists of characters (leftmost,
non-overlapping): the fuel argument only bounds the recursion and any value
of at least `l.length + 1` is sufficient, `sep` being non-empty. -/
def pySplitAux (sep : List Char) : Nat → List Char → List (List Char)
  | 0, l => [l]
  | fuel + 1, l =>
    match splitFirst sep l with
    | none => [l]
    | some (pre, post) => pre :: pySplitAux sep fuel post

/-- Python `str.split(sep)` for a non-empty separator. -/
def pySplit (s sep : String) : List String :=
  (pySplitAux sep.toList (s.toList.length + 1) s.toList).map String.mk

/-- Python `str.lower()` (over the ASCII range, which is all the sources
compare). -/
def pyLower (s : String) : String :=
  String.mk (s.toList.map Char.toLower)

/-- Python `int()` applied to a rational value: truncation toward zero. -/
def pyInt (q : ℚ) : ℤ :=
  if 0 ≤ q then ⌊q⌋ else ⌈q⌉

/-- A tweet as assembled by `XClient.fetch_tweets` (x_client.py lines
95-104): the resolved (reference-chasing) tweet's data.  `created_at` is the
ISO string (or `None`) stored in the dict; `engagement_metrics` is the
`public_metrics` mapping. -/
structure Tweet where
  tweet_id : Nat
  original_tweet_id : Nat
  author_username : String
  text : String
  media_urls : List String
  image_descriptions : List String
  engagement_metrics : List (String × Nat)
  created_at : Option String
deriving Repr, DecidableEq

/-- The context dict built by `handle_selected_tweet` (bot.py lines 55-61). -/
structure Context where
  tweet : Tweet
  research_summary : String
deriving Repr, DecidableEq

/-- One `create_tweet` call issued by `XClient`: either a quote of
`quote_tweet_id` (x_client.py line 134), a reply to a platform-assigned
string id while posting a thread (line 130), or a direct reply to a fetched
tweet's id (`post_reply`, line 190). -/
inductive TweetCall where
  | quote (quote_tweet_id : Nat) (text : String)
  | reply (in_reply_to : String) (text : String)
  | replyTo (in_reply_to : Nat) (text : String)
deriving Repr, DecidableEq

/-- The text of a `create_tweet` call. -/
def TweetCall.sentText : TweetCall → String
  | .quote _ t => t
  | .reply _ t => t
  | .replyTo _ t => t

/-- Whether a call is a thread-segment reply (anchored at a platform id). -/
def TweetCall.isReply : TweetCall → Bool
  | .reply _ _ => true
  | _ => false

/-- The dict returned for a successfully posted tweet (x_client.py lines
138-143 and 194-199).  The wall-clock `created_at` timestamp is omitted. -/
structure PostResult where
  tweet_id : String
  text : String
  author_username : String
deriving Repr, DecidableEq

/-! ### OpenAIClient (src/clients/openai_client.py) -/

/-- Shared delimiter parse of `select_tweet` (lines 51-56) and
`identify_research_topic` (lines 183-188): extract
`content.split("### Analysis ###")[1].split("### Response ###")[0].strip()`
and `content.split("### Response ###")[1].strip()`, apply the `"none"`
check, return `none` when an `IndexError` is raised (delimiter missing) or
the answer is `"none"` (case-insensitively). -/
def parse_analysis_response (raw : String) : Option String :=
  let content := pyStrip raw
  match (pySplit content "### Analysis ###")[1]? with
  | none => none
  | some _ =>
    match (pySplit content "### Response ###")[1]? with
    | none => none
    | some answer =>
      let answer := pyStrip answer
      if pyLower answer = "none" then none else some answer

/-- `OpenAIClient.select_tweet` (lines 12-59): `r` is the oracle call's
outcome; any exception (including a missing delimiter) yields `None`. -/
def select_tweet (r : Option String) : Option String :=
  match r with
  | none => none
  | some raw => parse_analysis_response raw

/-- `OpenAIClient.identify_research_topic` (lines 141-191): identical parse
and failure handling as `select_tweet`. -/
def identify_research_topic (r : Option String) : Option String :=
  match r with
  | none => none
  | some raw => parse_analysis_response raw

/-- `OpenAIClient.decide_quote_or_reply` (lines 61-105): `True` for quote
tweet only when `content.split("### Decision ###")[1].strip().lower() ==
"quote tweet"`; any exception (oracle error or missing delimiter) returns
`False`. -/
def decide_quote_or_reply (r : Option String) : Bool :=
  match r with
  | none => false
  | some raw =>
    let content := pyStrip raw
    match (pySplit content "### Decision ###")[1]? with
    | none => false
    | some d => pyLower (pyStrip d) = "quote tweet"

/-- One attempt of `OpenAIClient.generate_reply` (lines 203-263) applied to
a returned content string: parse the Analysis/Reply sections (lines
251-253), discard the attempt (`none`) on a missing delimiter
(`IndexError`) or a reply longer than 280 characters (lines 256-259);
otherwise return the parsed `(analysis, response_text)`. -/
def generate_reply_attempt (raw : String) : Option (String × String) :=
  let content := pyStrip raw
  match (pySplit content "### Analysis ###")[1]? with
  | none => none
  | some afterAnalysis =>
    let analysis := pyStrip (((pySplit afterAnalysis "### Reply ###").headD ""))
    match (pySplit content "### Reply ###")[1]? with
    | none => none
    | some afterReply =>
      let response_text := pyStrip afterReply
      if response_text.length > 280 then none
      else some (analysis, response_text)

/-- The `while attempt < max_attempts` loop of `generate_reply` (lines
201-270): `attempt` is the current attempt index, the second argument the
number of attempts still allowed.  Exhaustion returns the failure sentinel
`(None, None)` (line 270). -/
def generate_reply_loop (oracle : Nat → Option String) :
    Nat → Nat → Option String × Option String
  | _, 0 => (none, none)
  | attempt, n + 1 =>
    match (oracle attempt).bind generate_reply_attempt with
    | some (analysis, response_text) => (some analysis, some response_text)
    | none => generate_reply_loop oracle (attempt + 1) n

/-- `OpenAIClient.generate_reply` with its default budget
`max_attempts=3`. -/
def generate_reply (oracle : Nat → Option String) :
    Option String × Option String :=
  generate_reply_loop oracle 0 3

/-- One attempt of `OpenAIClient.generate_quote_tweet` (lines 282-357)
applied to a returned content string: parse the Analysis/Tweet/Thread
sections (lines 334-340), build the thread list from the non-blank stripped
lines of the Thread section (lines 339-340), discard the attempt on a
missing delimiter, a main tweet longer than 280 characters (lines 343-346)
or any thread tweet longer than 280 characters (lines 348-353, the
`for`/`else`); otherwise return `(analysis, response_text, thread_list)`
(line 357). -/
def generate_quote_attempt (raw : String) :
    Option (String × String × List String) :=
  let content := pyStrip raw
  match (pySplit content "### Analysis ###")[1]? with
  | none => none
  | some afterAnalysis =>
    let analysis := pyStrip (((pySplit afterAnalysis "### Tweet ###").headD ""))
    match (pySplit content "### Tweet ###")[1]? with
    | none => none
    | some afterTweet =>
      let response_text := pyStrip (((pySplit afterTweet "### Thread ###").headD ""))
      match (pySplit content "### Thread ###")[1]? with
      | none => none
      | some afterThread =>
        let thread_section := pyStrip afterThread
        let thread_list :=
          ((pySplit thread_section "\n").map pyStrip).filter (fun t => t ≠ "")
        if response_text.length > 280 then none
        else if thread_list.any (fun t => t.length > 280) then none
        else some (analysis, response_text, thread_list)

/-- The retry loop of `generate_quote_tweet` (lines 280-365); exhaustion
returns the failure sentinel `(None, None, [])` (line 365). -/
def generate_quote_tweet_loop (oracle : Nat → Option String) :
    Nat → Nat → Option String × Option String × List String
  | _, 0 => (none, none, [])
  | attempt, n + 1 =>
    match (oracle attempt).bind generate_quote_attempt with
    | some (analysis, response_text, thread_list) =>
      (some analysis, some response_text, thread_list)
    | none => generate_quote_tweet_loop oracle (attempt + 1) n

/-- `OpenAIClient.generate_quote_tweet` with its default budget
`max_attempts=3`. -/
def generate_quote_tweet (oracle : Nat → Option String) :
    Option String × Option String × List String :=
  generate_quote_tweet_loop oracle 0 3

/-! ### PerplexityClient (src/clients/perplexity_client.py) -/

/-- `PerplexityClient.research_topic` (lines 12-50): returns the stripped
content, or `None` when the call raises. -/
def research_topic (r : Option String) : Option String :=
  r.map pyStrip

/-! ### XClient (src/clients/x_client.py) -/

/-- The `create_tweet` call issued by `post_tweet_with_retry` (x_client.py
lines 129-136): with a truthy `in_reply_to` (a non-empty string, Python
truthiness) it is a reply to that id, otherwise a quote of the enclosing
`quote_tweet_id`. -/
def retryCall (quote_tweet_id : Nat) (text : String)
    (in_reply_to : Option String) : TweetCall :=
  match in_reply_to with
  | some a => if a = "" then TweetCall.quote quote_tweet_id text
              else TweetCall.reply a text
  | none => TweetCall.quote quote_tweet_id text

/-- The helper `post_tweet_with_retry` of `post_quote_tweet` (x_client.py
lines 126-152).  `env k` is the outcome of the `k`-th `create_tweet` call
issued overall (`none` = a `ConnectionError`/`TweepyException` was raised,
`some id` = success with platform-assigned id `id`); the first argument of
the recursion is the current global call counter, the second the number of
attempts remaining (`retries`, default 4).  Returns the `PostResult` (or
`none` after exhaustion, line 152), the new call counter, and the calls
issued.  The inter-attempt `time.sleep(delay)` is not modelled. -/
def post_tweet_with_retry (env : Nat → Option String) (quote_tweet_id : Nat)
    (text : String) (in_reply_to : Option String) :
    Nat → Nat → Option PostResult × Nat × List TweetCall
  | k, 0 => (none, k, [])
  | k, n + 1 =>
    match env k with
    | some id =>
      (some ⟨id, text, "ai_meme_review"⟩, k + 1,
        [retryCall quote_tweet_id text in_reply_to])
    | none =>
      let r := post_tweet_with_retry env quote_tweet_id text in_reply_to (k + 1) n
      (r.1, r.2.1, retryCall quote_tweet_id text in_reply_to :: r.2.2)

/-- The thread loop of `post_quote_tweet` (x_client.py lines 162-176):
posts each thread text as a reply to `anchor` (the id of the most recently
successfully posted tweet), advancing the anchor only on success (line 172)
and continuing past failed segments (lines 173-175).  Returns the
successfully posted thread tweets, the final call counter and the calls
issued. -/
def post_quote_thread (env : Nat → Option String) (quote_tweet_id : Nat) :
    List String → String → Nat → List PostResult × Nat × List TweetCall
  | [], _, k => ([], k, [])
  | text :: rest, anchor, k =>
    let attempt := post_tweet_with_retry env quote_tweet_id text (some anchor) k 4
    match attempt.1 with
    | some pr =>
      let r := post_quote_thread env quote_tweet_id rest pr.tweet_id attempt.2.1
      (pr :: r.1, r.2.1, attempt.2.2 ++ r.2.2)
    | none =>
      let r := post_quote_thread env quote_tweet_id rest anchor attempt.2.1
      (r.1, r.2.1, attempt.2.2 ++ r.2.2)

/-- `XClient.post_quote_tweet` (x_client.py lines 113-177) with its default
budget `max_retries=4`: post the main quote tweet with retry; if it fails,
abort with `None` (lines 157-159); otherwise post the thread anchored at the
main tweet's id (lines 161-176) and return the main tweet together with the
successfully posted thread tweets (line 177).  The second component is the
trace of all `create_tweet` calls issued. -/
def post_quote_tweet (env : Nat → Option String) (quote_tweet_id : Nat)
    (response_text : String) (thread : List String) :
    Option (PostResult × List PostResult) × List TweetCall :=
  let main := post_tweet_with_retry env quote_tweet_id response_text none 0 4
  match main.1 with
  | none => (none, main.2.2)
  | some main_tweet =>
    let r := post_quote_thread env quote_tweet_id thread main_tweet.tweet_id main.2.1
    (some (main_tweet, r.1), main.2.2 ++ r.2.2)

/-- The retry loop of `XClient.post_reply` (x_client.py lines 188-208):
same bounded retry as the quote primary, issuing direct replies to the
fetched tweet's id. -/
def post_reply_loop (env : Nat → Option String) (in_reply_to_tweet_id : Nat)
    (reply_text : String) :
    Nat → Nat → Option PostResult × List TweetCall
  | _, 0 => (none, [])
  | k, n + 1 =>
    match env k with
    | some id =>
      (some ⟨id, reply_text, "ai_meme_review"⟩,
        [TweetCall.replyTo in_reply_to_tweet_id reply_text])
    | none =>
      let r := post_reply_loop env in_reply_to_tweet_id reply_text (k + 1) n
      (r.1, TweetCall.replyTo in_reply_to_tweet_id reply_text :: r.2)

/-- `XClient.post_reply` (x_client.py lines 179-208) with its default
budget `max_retries=4`. -/
def post_reply (env : Nat → Option String) (in_reply_to_tweet_id : Nat)
    (reply_text : String) : Option PostResult × List TweetCall :=
  post_reply_loop env in_reply_to_tweet_id reply_text 0 4

/-! ### The scheduler (src/core/bot.py) -/

/-- `processed_tweet_ids.add` (bot.py line 94): Python `set.add`, kept as a
duplicate-free list. -/
def markSeen (store : List Nat) (id : Nat) : List Nat :=
  if id ∈ store then store else store ++ [id]

/-- `process_fetched_tweets` (bot.py lines 22-45): filter out already
processed tweets, ask the selection oracle, and locate the selected tweet by
comparing `str(tweet["tweet_id"])` with the oracle's answer.  `selectResp`
is the outcome of the oracle call inside `select_tweet`.  An empty filtered
list, a falsy (`None` or empty) selection answer, or an answer matching no
tweet yields no selected tweet. -/
def process_fetched_tweets (fetched_tweets : List Tweet) (store : List Nat)
    (selectResp : Option String) : Option Tweet × Option (List Tweet) :=
  let unprocessed_tweets :=
    fetched_tweets.filter (fun t => t.tweet_id ∉ store)
  if unprocessed_tweets.isEmpty then (none, none)
  else
    match select_tweet selectResp with
    | none => (none, none)
    | some selected_tweet_id =>
      if selected_tweet_id = "" then (none, none)
      else
        (unprocessed_tweets.find?
          (fun t => toString t.tweet_id = selected_tweet_id),
         some unprocessed_tweets)

/-- The external inputs consumed by one iteration of `main_cycle` (bot.py
lines 99-133).  `fetch` is the result of `fetch_tweets` (`Except.error ()`
models an exception escaping it, i.e. one not caught by its
`TweepyException` handler); the `…Resp` fields are the outcomes of the
oracle calls made by the respective client methods; `genResps` gives the
generation oracle's outcome per attempt; `postEnv` the platform outcome per
`create_tweet` call; `postExn` models an exception escaping the publish
call (one not caught by its `ConnectionError`/`TweepyException`
handlers). -/
structure CycleEnv where
  fetch : Except Unit (List Tweet)
  selectResp : Option String
  identifyResp : Option String
  researchResp : Option String
  decideResp : Option String
  genResps : Nat → Option String
  postEnv : Nat → Option String
  postExn : Bool

/-- What one iteration of the `while True` loop of `main_cycle` did:
the resulting `processed_tweet_ids`, the platform calls issued, whether the
checked `post_result` was truthy, whether the end-of-cycle sleep statement
(bot.py line 133) was reached, whether an exception was caught at the cycle
boundary (line 125), and the tweet selected by `process_fetched_tweets`. -/
structure CycleResult where
  store : List Nat
  calls : List TweetCall
  postSucceeded : Bool
  slept : Bool
  caughtExn : Bool
  selected : Option Tweet

/-- `handle_selected_tweet` (bot.py lines 48-94): enrich the selected tweet
(lines 55-61), decide the response mode (line 64), generate content (lines
66-73), skip on a falsy `response_text` (lines 75-77), publish (lines
80-90) and mark the tweet processed on a truthy `post_result` (lines
92-94).  Returns the new store, the calls issued and whether `post_result`
was truthy; `Except.error ()` models an exception escaping the publish
call. -/
def handle_selected_tweet (env : CycleEnv) (selected_tweet : Option Tweet)
    (store : List Nat) : Except Unit (List Nat × List TweetCall × Bool) :=
  match selected_tweet with
  | none => .ok (store, [], false)
  | some tweet =>
    let topic := identify_research_topic env.identifyResp
    let research_summary :=
      match topic with
      | some t => if t = "" then none else research_topic env.researchResp
      | none => none
    let context : Context :=
      ⟨tweet,
        match research_summary with
        | some s => if s = "" then "No additional insights available." else s
        | none => "No additional insights available."⟩
    let is_quote_tweet := decide_quote_or_reply env.decideResp
    let generated :=
      if is_quote_tweet then
        let g := generate_quote_tweet env.genResps
        (g.2.1, g.2.2)
      else
        let g := generate_reply env.genResps
        (g.2, ([] : List String))
    match generated.1 with
    | none => .ok (store, [], false)
    | some response_text =>
      if response_text = "" then .ok (store, [], false)
      else if env.postExn then .error ()
      else if is_quote_tweet then
        let r := post_quote_tweet env.postEnv context.tweet.tweet_id
          response_text generated.2
        match r.1 with
        | some _ => .ok (markSeen store tweet.tweet_id, r.2, true)
        | none => .ok (store, r.2, false)
      else
        let r := post_reply env.postEnv tweet.tweet_id response_text
        match r.1 with
        | some _ => .ok (markSeen store tweet.tweet_id, r.2, true)
        | none => .ok (store, r.2, false)

/-- One iteration of the `while True` loop of `main_cycle` (bot.py lines
99-133).  An empty fetch executes `continue` (line 113), restarting the
loop without reaching the sleep statement; an exception escaping steps 1-5
is caught by the `except` at line 125 and the iteration then falls through
to the sleep. -/
def cycle (env : CycleEnv) (store : List Nat) : CycleResult :=
  match env.fetch with
  | .error _ => ⟨store, [], false, true, true, none⟩
  | .ok fetched_tweets =>
    if fetched_tweets.isEmpty then ⟨store, [], false, false, false, none⟩
    else
      let p := process_fetched_tweets fetched_tweets store env.selectResp
      match handle_selected_tweet env p.1 store with
      | .error _ => ⟨store, [], false, true, true, p.1⟩
      | .ok (store2, calls, ok) => ⟨store2, calls, ok, true, false, p.1⟩

/-- `main_cycle` (bot.py lines 97-133) run over a finite stream of cycle
inputs: the loop itself only stops when the process is interrupted, which
is modelled by the stream ending. -/
def main_cycle : List CycleEnv → List Nat → List CycleResult
  | [], _ => []
  | env :: rest, store =>
    let r := cycle env store
    r :: main_cycle rest r.store

/-- The jittered cycle wait time (bot.py lines 129-131):
`CYCLE_LENGTH + int(CYCLE_LENGTH * variance)`. -/
def cycle_wait_time (cycle_length : ℤ) (variance : ℚ) : ℤ :=
  cycle_length + pyInt (cycle_length * variance)

/-! ### Vocabulary for stating properties of the publisher trace -/

/-- The first successful platform call among the `n` calls starting at
global counter `k`: its offset from `k` and the assigned id. -/
def firstSucc (env : Nat → Option String) : Nat → Nat → Option (Nat × String)
  | _, 0 => none
  | k, n + 1 =>
    match env k with
    | some id => some (0, id)
    | none => (firstSucc env (k + 1) n).map (fun p => (p.1 + 1, p.2))

/-- The id assigned by the most recent successful platform call strictly
before global counter `j` (`none` when no call before `j` succeeded). -/
def lastSuccBefore (env : Nat → Option String) : Nat → Option String
  | 0 => none
  | j + 1 =>
    match env j with
    | some id => some id
    | none => lastSuccBefore env j

/-- The `(assigned id, text)` contribution of a single call with outcome
`o`: a successful thread-reply call contributes its pair, anything else
nothing. -/
def succReplyHead (c : TweetCall) (o : Option String) : List (String × String) :=
  match c, o with
  | TweetCall.reply _ t, some id => [(id, t)]
  | _, _ => []

/-- The `(assigned id, text)` pairs of the successful thread-reply calls of
a call trace whose first call has global counter `k`, in order. -/
def succReplies (env : Nat → Option String) : Nat → List TweetCall → List (String × String)
  | _, [] => []
  | k, c :: cs => succReplyHead c (env k) ++ succReplies env (k + 1) cs

/-! ### Concrete sample inputs used to exercise the theorems -/

/-- A sample fetched tweet. -/
def sampleTweet : Tweet :=
  ⟨77, 77, "someone", "dogs are great", [], [], [("like_count", 3)], none⟩

/-- A cycle input in which every external call fails (empty fetch, every
oracle call raising, every platform call raising). -/
def envEmptyFetch : CycleEnv :=
  ⟨.ok [], none, none, none, none, fun _ => none, fun _ => none, false⟩

/-- A cycle input whose fetch raises an exception. -/
def envFetchErr : CycleEnv :=
  ⟨.error (), none, none, none, none, fun _ => none, fun _ => none, false⟩

/-- A cycle input with one fetched tweet and every oracle call raising. -/
def envOneTweet : CycleEnv :=
  ⟨.ok [sampleTweet], none, none, none, none, fun _ => none, fun _ => none,
    false⟩

/-! ### Helper lemmas -/

theorem cycle_eq_fetch_error (env : CycleEnv) (store : List Nat)
    (h : env.fetch = .error ()) :
    cycle env store = ⟨store, [], false, true, true, none⟩ := by
  unfold cycle
  rw [h]

theorem cycle_eq_fetch_empty (env : CycleEnv) (store : List Nat)
    (l : List Tweet) (h : env.fetch = .ok l) (he : l.isEmpty = true) :
    cycle env store = ⟨store, [], false, false, false, none⟩ := by
  unfold cycle
  rw [h]
  simp only []
  rw [if_pos he]

theorem cycle_eq_handle_error (env : CycleEnv) (store : List Nat)
    (l : List Tweet) (h : env.fetch = .ok l) (he : l.isEmpty = false)
    (hh : handle_selected_tweet env
      (process_fetched_tweets l store env.selectResp).1 store = .error ()) :
    cycle env store =
      ⟨store, [], false, true, true,
        (process_fetched_tweets l store env.selectResp).1⟩ := by
  unfold cycle
  rw [h]
  simp only []
  rw [if_neg (by simp [he]), hh]

theorem cycle_eq_handle_ok (env : CycleEnv) (store : List Nat)
    (l : List Tweet) (out : List Nat × List TweetCall × Bool)
    (h : env.fetch = .ok l) (he : l.isEmpty = false)
    (hh : handle_selected_tweet env
      (process_fetched_tweets l store env.selectResp).1 store = .ok out) :
    cycle env store =
      ⟨out.1, out.2.1, out.2.2, true, false,
        (process_fetched_tweets l store env.selectResp).1⟩ := by
  unfold cycle
  rw [h]
  simp only []
  rw [if_neg (by simp [he]), hh]

theorem stripChars_has_nonws (l : List Char) (h : stripChars l ≠ []) :
    ∃ c ∈ stripChars l, c.isWhitespace = false := by
  unfold stripChars at *
  have hm : (l.dropWhile Char.isWhitespace).reverse.dropWhile
      Char.isWhitespace ≠ [] := by
    intro hnil
    rw [hnil] at h
    exact h rfl
  refine ⟨((l.dropWhile Char.isWhitespace).reverse.dropWhile
    Char.isWhitespace).head hm, ?_, ?_⟩
  · rw [List.mem_reverse]
    exact List.head_mem hm
  · exact List.head_dropWhile_not Char.isWhitespace _ hm

theorem pyStrip_ne_empty_to_nonws {s t : String} (h : s = pyStrip t)
    (hne : s ≠ "") : s.toList.any (fun c => !c.isWhitespace) = true := by
  subst h
  have hnil : stripChars t.toList ≠ [] := by
    intro hnil
    apply hne
    show String.mk (stripChars t.toList) = ""
    rw [hnil]
  obtain ⟨c, hc, hcw⟩ := stripChars_has_nonws t.toList hnil
  rw [List.any_eq_true]
  exact ⟨c, hc, by simp [hcw]⟩

theorem generate_reply_attempt_length {raw analysis text : String}
    (h : generate_reply_attempt raw = some (analysis, text)) :
    text.length ≤ 280 := by
  unfold generate_reply_attempt at h
  simp only [] at h
  split at h
  · exact absurd h (by simp)
  split at h
  · exact absurd h (by simp)
  split at h
  · exact absurd h (by simp)
  · simp only [Option.some.injEq, Prod.mk.injEq] at h
    obtain ⟨-, htext⟩ := h
    subst htext
    omega

theorem generate_quote_attempt_spec {raw analysis text : String}
    {thread : List String}
    (h : generate_quote_attempt raw = some (analysis, text, thread)) :
    text.length ≤ 280 ∧
      ∀ s ∈ thread, s.length ≤ 280 ∧ s ≠ "" ∧
        s.toList.any (fun c => !c.isWhitespace) = true := by
  unfold generate_quote_attempt at h
  simp only [] at h
  split at h
  · exact absurd h (by simp)
  split at h
  · exact absurd h (by simp)
  split at h
  · exact absurd h (by simp)
  split at h
  · exact absurd h (by simp)
  rename_i hlen
  split at h
  · exact absurd h (by simp)
  rename_i hany
  simp only [Option.some.injEq, Prod.mk.injEq] at h
  obtain ⟨-, htext, hthread⟩ := h
  subst htext
  constructor
  · omega
  · intro s hs
    rw [← hthread] at hs
    have hsne : s ≠ "" := by
      have := (List.mem_filter.mp hs).2
      simpa using this
    have hsrc := (List.mem_filter.mp hs).1
    obtain ⟨u, -, hu⟩ := List.mem_map.mp hsrc
    refine ⟨?_, hsne, pyStrip_ne_empty_to_nonws hu.symm hsne⟩
    by_contra hgt
    push_neg at hgt
    apply hany
    rw [List.any_eq_true]
    refine ⟨s, hs, by simp only [decide_eq_true_eq]; omega⟩

theorem generate_reply_loop_length (oracle : Nat → Option String) :
    ∀ (n attempt : Nat) (t : String),
      (generate_reply_loop oracle attempt n).2 = some t → t.length ≤ 280 := by
  intro n
  induction n with
  | zero => intro attempt t h; exact absurd h (by simp [generate_reply_loop])
  | succ n ih =>
    intro attempt t h
    rw [generate_reply_loop] at h
    split at h
    · rename_i a1 t1 heq
      obtain ⟨raw, -, hraw⟩ := Option.bind_eq_some.mp heq
      have ht : t1 = t := by simpa using h
      subst ht
      exact generate_reply_attempt_length hraw
    · exact ih (attempt + 1) t h

theorem generate_reply_loop_fail (oracle : Nat → Option String) :
    ∀ (n attempt : Nat),
      (∀ i, attempt ≤ i → i < attempt + n →
        (oracle i).bind generate_reply_attempt = none) →
      generate_reply_loop oracle attempt n = (none, none) := by
  intro n
  induction n with
  | zero => intro attempt _; rfl
  | succ n ih =>
    intro attempt hfail
    rw [generate_reply_loop]
    rw [hfail attempt le_rfl (by omega)]
    exact ih (attempt + 1) (fun i h1 h2 => hfail i (by omega) (by omega))

theorem generate_quote_loop_primary_length (oracle : Nat → Option String) :
    ∀ (n attempt : Nat) (t : String),
      (generate_quote_tweet_loop oracle attempt n).2.1 = some t →
      t.length ≤ 280 := by
  intro n
  induction n with
  | zero =>
    intro attempt t h
    exact absurd h (by simp [generate_quote_tweet_loop])
  | succ n ih =>
    intro attempt t h
    rw [generate_quote_tweet_loop] at h
    split at h
    · rename_i a1 t1 th1 heq
      obtain ⟨raw, -, hraw⟩ := Option.bind_eq_some.mp heq
      have ht : t1 = t := by simpa using h
      subst ht
      exact (generate_quote_attempt_spec hraw).1
    · exact ih (attempt + 1) t h

theorem generate_quote_loop_thread_spec (oracle : Nat → Option String) :
    ∀ (n attempt : Nat) (s : String),
      s ∈ (generate_quote_tweet_loop oracle attempt n).2.2 →
      s.length ≤ 280 ∧ s ≠ "" ∧
        s.toList.any (fun c => !c.isWhitespace) = true := by
  intro n
  induction n with
  | zero =>
    intro attempt s h
    exact absurd h (by simp [generate_quote_tweet_loop])
  | succ n ih =>
    intro attempt s h
    rw [generate_quote_tweet_loop] at h
    split at h
    · rename_i a1 t1 th1 heq
      obtain ⟨raw, -, hraw⟩ := Option.bind_eq_some.mp heq
      exact (generate_quote_attempt_spec hraw).2 s h
    · exact ih (attempt + 1) s h

theorem generate_quote_loop_fail (oracle : Nat → Option String) :
    ∀ (n attempt : Nat),
      (∀ i, attempt ≤ i → i < attempt + n →
        (oracle i).bind generate_quote_attempt = none) →
      generate_quote_tweet_loop oracle attempt n = (none, none, []) := by
  intro n
  induction n with
  | zero => intro attempt _; rfl
  | succ n ih =>
    intro attempt hfail
    rw [generate_quote_tweet_loop]
    rw [hfail attempt le_rfl (by omega)]
    exact ih (attempt + 1) (fun i h1 h2 => hfail i (by omega) (by omega))

theorem generate_quote_loop_sentinel (oracle : Nat → Option String) :
    ∀ (n attempt : Nat),
      (generate_quote_tweet_loop oracle attempt n).1 = none →
      generate_quote_tweet_loop oracle attempt n = (none, none, []) := by
  intro n
  induction n with
  | zero => intro attempt _; rfl
  | succ n ih =>
    intro attempt h
    rw [generate_quote_tweet_loop] at h ⊢
    split at h
    · exact absurd h (by simp)
    · exact ih (attempt + 1) h

theorem firstSucc_some_spec (env : Nat → Option String) :
    ∀ (n k i : Nat) (id : String), firstSucc env k n = some (i, id) →
      i < n ∧ env (k + i) = some id ∧ ∀ m, m < i → env (k + m) = none := by
  intro n
  induction n with
  | zero => intro k i id h; exact absurd h (by simp [firstSucc])
  | succ n ih =>
    intro k i id h
    rw [firstSucc] at h
    split at h
    · rename_i id0 henv
      simp only [Option.some.injEq, Prod.mk.injEq] at h
      obtain ⟨hi, hid⟩ := h
      subst hi; subst hid
      exact ⟨by omega, by simpa using henv, fun m hm => absurd hm (by omega)⟩
    · rename_i henv
      rcases hrec : firstSucc env (k + 1) n with _ | p
      · rw [hrec] at h; exact absurd h (by simp)
      · rw [hrec] at h
        simp only [Option.map_some', Option.some.injEq, Prod.mk.injEq] at h
        obtain ⟨hi, hid⟩ := h
        obtain ⟨h1, h2, h3⟩ := ih (k + 1) p.1 p.2 (by rw [hrec])
        subst hid
        refine ⟨by omega, by rw [show k + i = k + 1 + p.1 by omega]; exact h2, ?_⟩
        intro m hm
        rcases Nat.eq_zero_or_pos m with hz | hpos
        · subst hz; simpa using henv
        · rw [show k + m = k + 1 + (m - 1) by omega]
          exact h3 (m - 1) (by omega)

theorem firstSucc_eq_none (env : Nat → Option String) :
    ∀ (n k : Nat), (∀ m, m < n → env (k + m) = none) →
      firstSucc env k n = none := by
  intro n
  induction n with
  | zero => intro k _; rfl
  | succ n ih =>
    intro k hall
    rw [firstSucc]
    have h0 : env k = none := by simpa using hall 0 (by omega)
    rw [h0]
    rw [ih (k + 1) (fun m hm => by
      rw [show k + 1 + m = k + (m + 1) by omega]
      exact hall (m + 1) (by omega))]
    rfl

theorem firstSucc_none_spec (env : Nat → Option String) :
    ∀ (n k : Nat), firstSucc env k n = none →
      ∀ m, m < n → env (k + m) = none := by
  intro n
  induction n with
  | zero => intro k _ m hm; omega
  | succ n ih =>
    intro k h m hm
    rw [firstSucc] at h
    rcases henv : env k with _ | id
    · rcases Nat.eq_zero_or_pos m with hz | hpos
      · subst hz; simpa using henv
      · rw [henv] at h
        rcases hrec : firstSucc env (k + 1) n with _ | p
        · rw [show k + m = k + 1 + (m - 1) by omega]
          exact ih (k + 1) hrec (m - 1) (by omega)
        · rw [hrec] at h; exact absurd h (by simp)
    · rw [henv] at h; exact absurd h (by simp)

theorem post_tweet_with_retry_eq (env : Nat → Option String)
    (quote_tweet_id : Nat) (text : String) (in_reply_to : Option String) :
    ∀ (n k : Nat),
      post_tweet_with_retry env quote_tweet_id text in_reply_to k n =
        match firstSucc env k n with
        | some (i, id) =>
          (some ⟨id, text, "ai_meme_review"⟩, k + i + 1,
            List.replicate (i + 1) (retryCall quote_tweet_id text in_reply_to))
        | none =>
          (none, k + n,
            List.replicate n (retryCall quote_tweet_id text in_reply_to)) := by
  intro n
  induction n with
  | zero => intro k; rfl
  | succ n ih =>
    intro k
    rw [post_tweet_with_retry, firstSucc]
    rcases henv : env k with _ | id
    · simp only []
      rw [ih (k + 1)]
      rcases hrec : firstSucc env (k + 1) n with _ | p
      · simp only [Option.map_none]
        refine congrArg₂ Prod.mk rfl (congrArg₂ Prod.mk (by omega) rfl)
      · simp only [Option.map_some]
        refine congrArg₂ Prod.mk rfl (congrArg₂ Prod.mk (by omega) rfl)
    · rfl

theorem lastSuccBefore_succ_some (env : Nat → Option String) (k : Nat)
    (id : String) (h : env k = some id) :
    lastSuccBefore env (k + 1) = some id := by
  rw [lastSuccBefore, h]

theorem lastSuccBefore_add_none (env : Nat → Option String) :
    ∀ (d k : Nat), (∀ m, m < d → env (k + m) = none) →
      lastSuccBefore env (k + d) = lastSuccBefore env k := by
  intro d
  induction d with
  | zero => intro k _; rfl
  | succ d ih =>
    intro k hall
    rw [show k + (d + 1) = (k + d) + 1 by omega, lastSuccBefore]
    rw [hall d (by omega)]
    exact ih k (fun m hm => hall m (by omega))

theorem succReplies_append (env : Nat → Option String) :
    ∀ (cs1 cs2 : List TweetCall) (k : Nat),
      succReplies env k (cs1 ++ cs2) =
        succReplies env k cs1 ++ succReplies env (k + cs1.length) cs2 := by
  intro cs1
  induction cs1 with
  | nil => intro cs2 k; simp [succReplies]
  | cons c cs ih =>
    intro cs2 k
    rw [List.cons_append, succReplies, succReplies, ih cs2 (k + 1),
      List.append_assoc]
    have harith : k + (c :: cs).length = k + 1 + cs.length := by
      simp only [List.length_cons]
      omega
    rw [harith]

theorem succReplyHead_none (c : TweetCall) : succReplyHead c none = [] := by
  cases c <;> rfl

theorem succReplies_replicate_fail (env : Nat → Option String) (c : TweetCall) :
    ∀ (n k : Nat), (∀ m, m < n → env (k + m) = none) →
      succReplies env k (List.replicate n c) = [] := by
  intro n
  induction n with
  | zero => intro k _; rfl
  | succ n ih =>
    intro k hall
    rw [List.replicate_succ, succReplies]
    have h0 : env k = none := by simpa using hall 0 (by omega)
    rw [h0, succReplyHead_none, List.nil_append]
    exact ih (k + 1) (fun m hm => by
      rw [show k + 1 + m = k + (m + 1) by omega]
      exact hall (m + 1) (by omega))

theorem succReplies_replicate_success (env : Nat → Option String)
    (a t : String) :
    ∀ (i k : Nat) (id : String), (∀ m, m < i → env (k + m) = none) →
      env (k + i) = some id →
      succReplies env k (List.replicate (i + 1) (TweetCall.reply a t)) =
        [(id, t)] := by
  intro i
  induction i with
  | zero =>
    intro k id _ hsucc
    rw [List.replicate_succ, succReplies]
    have h0 : env k = some id := by simpa using hsucc
    rw [h0]
    rfl
  | succ i ih =>
    intro k id hall hsucc
    rw [List.replicate_succ, succReplies]
    have h0 : env k = none := by simpa using hall 0 (by omega)
    rw [h0, succReplyHead_none, List.nil_append]
    exact ih (k + 1) id
      (fun m hm => by
        rw [show k + 1 + m = k + (m + 1) by omega]
        exact hall (m + 1) (by omega))
      (by rw [show k + 1 + i = k + (i + 1) by omega]; exact hsucc)

theorem retryCall_some_ne (q : Nat) (t a : String) (h : a ≠ "") :
    retryCall q t (some a) = TweetCall.reply a t := by
  rw [retryCall]
  simp [h]

theorem post_quote_thread_spec (env : Nat → Option String) (q : Nat)
    (hids : ∀ m id, env m = some id → id ≠ "") :
    ∀ (ts : List String) (anchor : String) (k : Nat),
      anchor ≠ "" → lastSuccBefore env k = some anchor →
      ∃ counts : List Nat,
        counts.length = ts.length ∧
        (∀ c ∈ counts, 1 ≤ c ∧ c ≤ 4) ∧
        (post_quote_thread env q ts anchor k).2.2.map TweetCall.sentText =
          (List.zipWith (fun c t => List.replicate c t) counts ts).flatten ∧
        (post_quote_thread env q ts anchor k).2.1 =
          k + (post_quote_thread env q ts anchor k).2.2.length ∧
        (∀ c ∈ (post_quote_thread env q ts anchor k).2.2, c.isReply = true) ∧
        (∀ j a t, (post_quote_thread env q ts anchor k).2.2[j]? =
            some (TweetCall.reply a t) →
          lastSuccBefore env (k + j) = some a) ∧
        (post_quote_thread env q ts anchor k).1.map
            (fun pr => (pr.tweet_id, pr.text)) =
          succReplies env k (post_quote_thread env q ts anchor k).2.2 := by
  intro ts
  induction ts with
  | nil =>
    intro anchor k _ _
    refine ⟨[], rfl, by simp, rfl, rfl, ?_, ?_, rfl⟩
    · intro c hc
      exact absurd hc (by simp [post_quote_thread])
    · intro j a t h
      exact absurd h (by simp [post_quote_thread])
  | cons t ts ih =>
    intro anchor k hanchor hlast
    have hretry := post_tweet_with_retry_eq env q t (some anchor) 4 k
    have hcall := retryCall_some_ne q t anchor hanchor
    rcases hfs : firstSucc env k 4 with _ | ⟨i, id⟩
    · -- this segment fails on all four attempts
      rw [hfs] at hretry
      rw [hcall] at hretry
      have hallnone := firstSucc_none_spec env 4 k hfs
      have hlast4 : lastSuccBefore env (k + 4) = some anchor := by
        rw [lastSuccBefore_add_none env 4 k hallnone]; exact hlast
      obtain ⟨counts, hlen, hbnd, htexts, hk, hrep, hanch, hres⟩ :=
        ih anchor (k + 4) hanchor hlast4
      have hunf : post_quote_thread env q (t :: ts) anchor k =
          ((post_quote_thread env q ts anchor (k + 4)).1,
           (post_quote_thread env q ts anchor (k + 4)).2.1,
           List.replicate 4 (TweetCall.reply anchor t) ++
             (post_quote_thread env q ts anchor (k + 4)).2.2) := by
        simp only [post_quote_thread, hretry]
      refine ⟨4 :: counts, by simp [hlen], ?_, ?_, ?_, ?_, ?_, ?_⟩
      · intro c hc
        rcases List.mem_cons.mp hc with h4 | hrest
        · omega
        · exact hbnd c hrest
      · rw [hunf]
        simp only [List.map_append, List.map_replicate, List.zipWith_cons_cons,
          List.flatten_cons]
        rw [htexts]
        rfl
      · rw [hunf]
        simp only [List.length_append, List.length_replicate]
        rw [hk]
        omega
      · rw [hunf]
        intro c hc
        rcases List.mem_append.mp hc with hin | hin
        · rw [(List.mem_replicate.mp hin).2]
          rfl
        · exact hrep c hin
      · rw [hunf]
        intro j a t' hj
        simp only [List.getElem?_append] at hj
        split at hj
        · rename_i hj4
          rw [List.length_replicate] at hj4
          rw [List.getElem?_replicate, if_pos hj4] at hj
          simp only [Option.some.injEq, TweetCall.reply.injEq] at hj
          obtain ⟨ha, -⟩ := hj
          subst ha
          rw [lastSuccBefore_add_none env j k
            (fun m hm => hallnone m (by omega))]
          exact hlast
        · rename_i hj4
          rw [List.length_replicate] at hj4 hj
          have := hanch (j - 4) a t' hj
          rw [show k + 4 + (j - 4) = k + j by omega] at this
          exact this
      · rw [hunf]
        simp only []
        rw [succReplies_append, List.length_replicate]
        rw [succReplies_replicate_fail env _ 4 k hallnone, List.nil_append]
        exact hres
    · -- this segment succeeds on attempt offset i
      rw [hfs] at hretry
      rw [hcall] at hretry
      obtain ⟨hi4, henv, hbefore⟩ := firstSucc_some_spec env 4 k i id hfs
      have hidne : id ≠ "" := hids (k + i) id henv
      have hlastnext : lastSuccBefore env (k + i + 1) = some id :=
        lastSuccBefore_succ_some env (k + i) id henv
      obtain ⟨counts, hlen, hbnd, htexts, hk, hrep, hanch, hres⟩ :=
        ih id (k + i + 1) hidne hlastnext
      have hunf : post_quote_thread env q (t :: ts) anchor k =
          (⟨id, t, "ai_meme_review"⟩ ::
             (post_quote_thread env q ts id (k + i + 1)).1,
           (post_quote_thread env q ts id (k + i + 1)).2.1,
           List.replicate (i + 1) (TweetCall.reply anchor t) ++
             (post_quote_thread env q ts id (k + i + 1)).2.2) := by
        simp only [post_quote_thread, hretry]
      refine ⟨(i + 1) :: counts, by simp [hlen], ?_, ?_, ?_, ?_, ?_, ?_⟩
      · intro c hc
        rcases List.mem_cons.mp hc with h4 | hrest
        · omega
        · exact hbnd c hrest
      · rw [hunf]
        simp only [List.map_append, List.map_replicate, List.zipWith_cons_cons,
          List.flatten_cons]
        rw [htexts]
        rfl
      · rw [hunf]
        simp only [List.length_append, List.length_replicate]
        rw [hk]
        omega
      · rw [hunf]
        intro c hc
        rcases List.mem_append.mp hc with hin | hin
        · rw [(List.mem_replicate.mp hin).2]
          rfl
        · exact hrep c hin
      · rw [hunf]
        intro j a t' hj
        simp only [List.getElem?_append] at hj
        split at hj
        · rename_i hji
          rw [List.length_replicate] at hji
          rw [List.getElem?_replicate, if_pos hji] at hj
          simp only [Option.some.injEq, TweetCall.reply.injEq] at hj
          obtain ⟨ha, -⟩ := hj
          subst ha
          rw [lastSuccBefore_add_none env j k
            (fun m hm => hbefore m (by omega))]
          exact hlast
        · rename_i hji
          rw [List.length_replicate] at hji hj
          have := hanch (j - (i + 1)) a t' hj
          rw [show k + i + 1 + (j - (i + 1)) = k + j by omega] at this
          exact this
      · rw [hunf]
        simp only [List.map_cons]
        rw [succReplies_append, List.length_replicate]
        rw [succReplies_replicate_success env anchor t i k id hbefore henv]
        rw [show k + (i + 1) = k + i + 1 by omega]
        rw [hres]
        rfl

theorem retryCall_none (q : Nat) (t : String) :
    retryCall q t none = TweetCall.quote q t := rfl

/-- Claim C2: for every quote target, primary text, thread and pattern of
per-attempt publish outcomes (with platform-assigned ids non-empty, as the
platform guarantees): if the primary post fails on all four of its retry
attempts, `post_quote_tweet` returns failure and its trace consists of the
four primary attempts only (no thread segment is attempted); if the primary
succeeds, the trace is the primary's attempts followed by reply calls in
which every thread segment is attempted in order (between 1 and 4 calls
each, even when an earlier segment exhausts its retries), each attempted
segment replies to the most recently successfully posted unit, and the
returned thread results are exactly the successful segments in order. -/
theorem C2_post_quote_tweet_behaviour (env : Nat → Option String)
    (q : Nat) (txt : String) (thread : List String)
    (hids : ∀ k id, env k = some id → id ≠ "") :
    ((∀ i, i < 4 → env i = none) →
      (post_quote_tweet env q txt thread).1 = none ∧
      (post_quote_tweet env q txt thread).2 =
        List.replicate 4 (TweetCall.quote q txt)) ∧
    (∀ main thrs, (post_quote_tweet env q txt thread).1 = some (main, thrs) →
      main.text = txt ∧
      ∃ nPrim csThr,
        (post_quote_tweet env q txt thread).2 =
          List.replicate nPrim (TweetCall.quote q txt) ++ csThr ∧
        1 ≤ nPrim ∧ nPrim ≤ 4 ∧
        (∀ c ∈ csThr, c.isReply = true) ∧
        (∃ counts : List Nat,
          counts.length = thread.length ∧
          (∀ c ∈ counts, 1 ≤ c ∧ c ≤ 4) ∧
          csThr.map TweetCall.sentText =
            (List.zipWith (fun c t => List.replicate c t) counts thread).flatten) ∧
        (∀ j a t, csThr[j]? = some (TweetCall.reply a t) →
          lastSuccBefore env (nPrim + j) = some a) ∧
        thrs.map (fun pr => (pr.tweet_id, pr.text)) =
          succReplies env nPrim csThr) := by
  have hretry := post_tweet_with_retry_eq env q txt none 4 0
  constructor
  · intro hfail
    have hfs : firstSucc env 0 4 = none :=
      firstSucc_eq_none env 4 0 (fun m hm => by
        rw [show (0 : Nat) + m = m by omega]; exact hfail m hm)
    rw [hfs, retryCall_none] at hretry
    constructor <;> simp only [post_quote_tweet, hretry]
  · intro main thrs hsome
    rcases hfs : firstSucc env 0 4 with _ | ⟨i, id⟩
    · rw [hfs, retryCall_none] at hretry
      rw [show (post_quote_tweet env q txt thread).1 = none by
        simp only [post_quote_tweet, hretry]] at hsome
      exact absurd hsome (by simp)
    · rw [hfs, retryCall_none] at hretry
      obtain ⟨hi4, henv, hbefore⟩ := firstSucc_some_spec env 4 0 i id hfs
      rw [show (0 : Nat) + i = i by omega] at henv
      have hidne : id ≠ "" := hids i id henv
      have hlastnext : lastSuccBefore env (i + 1) = some id :=
        lastSuccBefore_succ_some env i id henv
      have hunf : post_quote_tweet env q txt thread =
          (some (⟨id, txt, "ai_meme_review"⟩,
             (post_quote_thread env q thread id (0 + i + 1)).1),
           List.replicate (i + 1) (TweetCall.quote q txt) ++
             (post_quote_thread env q thread id (0 + i + 1)).2.2) := by
        simp only [post_quote_tweet, hretry]
      rw [show (0 : Nat) + i + 1 = i + 1 by omega] at hunf
      rw [hunf] at hsome
      simp only [Option.some.injEq, Prod.mk.injEq] at hsome
      obtain ⟨hmain, hthrs⟩ := hsome
      subst hmain
      subst hthrs
      obtain ⟨counts, hlen, hbnd, htexts, -, hrep, hanch, hres⟩ :=
        post_quote_thread_spec env q hids thread id (i + 1) hidne hlastnext
      refine ⟨rfl, i + 1,
        (post_quote_thread env q thread id (i + 1)).2.2,
        by rw [hunf], by omega, by omega, hrep, ⟨counts, hlen, hbnd, htexts⟩,
        hanch, hres⟩

theorem handle_selected_tweet_genfail (env : CycleEnv)
    (sel : Option Tweet) (store : List Nat)
    (hr : generate_reply env.genResps = (none, none))
    (hq : generate_quote_tweet env.genResps = (none, none, [])) :
    handle_selected_tweet env sel store = .ok (store, [], false) := by
  cases sel with
  | none => rfl
  | some tweet =>
    unfold handle_selected_tweet
    simp only [hr, hq]
    rcases hdec : decide_quote_or_reply env.decideResp <;> simp [hdec]

/-- Claim C1: for every sequence of oracle responses, a non-sentinel result
of `generate_reply` has reply text of length at most 280, and a
non-sentinel result of `generate_quote_tweet` has primary text of length at
most 280 and every thread segment of length at most 280 (the sentinel's
empty thread satisfying the bound trivially). -/
theorem C1_generated_text_within_limit (oracle : Nat → Option String) :
    (∀ t, (generate_reply oracle).2 = some t → t.length ≤ 280) ∧
    (∀ t, (generate_quote_tweet oracle).2.1 = some t → t.length ≤ 280) ∧
    (∀ s ∈ (generate_quote_tweet oracle).2.2, s.length ≤ 280) := by
  refine ⟨?_, ?_, ?_⟩
  · intro t h
    exact generate_reply_loop_length oracle 3 0 t h
  · intro t h
    exact generate_quote_loop_primary_length oracle 3 0 t h
  · intro s hs
    exact (generate_quote_loop_thread_spec oracle 3 0 s hs).1

theorem C1_generated_text_within_limit_witness :
    (generate_reply
        (fun _ => some "### Analysis ###\nA\n### Reply ###\nwoof")).2 =
      some "woof" ∧ ("woof" : String).length ≤ 280 :=
  ⟨by decide,
    (C1_generated_text_within_limit
      (fun _ => some "### Analysis ###\nA\n### Reply ###\nwoof")).1
      "woof" (by decide)⟩

/-- Claim C4: if every generation attempt within the budget of 3 fails
(raises, fails to parse, or violates the length bound), `generate_reply`
returns the sentinel `(none, none)`, `generate_quote_tweet` returns the
sentinel `(none, none, [])`, and the cycle makes no publish call (and its
`post_result` check cannot succeed). -/
theorem C4_exhausted_generation_no_publish :
    (∀ oracle : Nat → Option String,
      (∀ i, i < 3 → (oracle i).bind generate_reply_attempt = none) →
      generate_reply oracle = (none, none)) ∧
    (∀ oracle : Nat → Option String,
      (∀ i, i < 3 → (oracle i).bind generate_quote_attempt = none) →
      generate_quote_tweet oracle = (none, none, [])) ∧
    (∀ (env : CycleEnv) (store : List Nat),
      (∀ i, i < 3 → (env.genResps i).bind generate_reply_attempt = none ∧
        (env.genResps i).bind generate_quote_attempt = none) →
      (cycle env store).calls = [] ∧
      (cycle env store).postSucceeded = false) := by
  refine ⟨?_, ?_, ?_⟩
  · intro oracle h
    exact generate_reply_loop_fail oracle 3 0
      (fun i _ hi => h i (by omega))
  · intro oracle h
    exact generate_quote_loop_fail oracle 3 0
      (fun i _ hi => h i (by omega))
  · intro env store h
    have hr : generate_reply env.genResps = (none, none) :=
      generate_reply_loop_fail env.genResps 3 0
        (fun i _ hi => (h i (by omega)).1)
    have hq : generate_quote_tweet env.genResps = (none, none, []) :=
      generate_quote_loop_fail env.genResps 3 0
        (fun i _ hi => (h i (by omega)).2)
    unfold cycle
    rcases henv : env.fetch with e | l
    · exact ⟨rfl, rfl⟩
    · rcases hemp : l.isEmpty with hf | ht
      · simp only [hemp]
        rw [handle_selected_tweet_genfail env _ store hr hq]
        exact ⟨rfl, rfl⟩
      · simp only [hemp]
        exact ⟨rfl, rfl⟩

theorem C4_exhausted_generation_no_publish_witness :
    (cycle envEmptyFetch []).calls = [] :=
  (C4_exhausted_generation_no_publish.2.2 envEmptyFetch []
    (fun i _ => ⟨rfl, rfl⟩)).1

/-- Claim C10: the thread returned by an accepted `generate_quote_tweet`
attempt contains no empty or whitespace-only segment (blank lines of the
Thread section are discarded); the failure sentinel carries an empty
thread; an accepted attempt whose Thread section consists only of blank
lines yields an empty thread; and a response lacking the Thread delimiter
is never accepted (its attempt fails), so the Publisher is never handed a
blank thread segment. -/
theorem C10_thread_never_blank (oracle : Nat → Option String) :
    (∀ a t th, generate_quote_tweet oracle = (some a, some t, th) →
      ∀ s ∈ th, s ≠ "" ∧ s.toList.any (fun c => !c.isWhitespace) = true) ∧
    ((generate_quote_tweet oracle).1 = none →
      generate_quote_tweet oracle = (none, none, [])) ∧
    (∀ raw a t th sec, generate_quote_attempt raw = some (a, t, th) →
      (pySplit (pyStrip raw) "### Thread ###")[1]? = some sec →
      (((pySplit (pyStrip sec) "\n").map pyStrip).all fun ln =>
        ln = "") = true →
      th = []) ∧
    (∀ raw, (pySplit (pyStrip raw) "### Thread ###")[1]? = none →
      generate_quote_attempt raw = none) := by
  refine ⟨?_, ?_, ?_, ?_⟩
  · intro a t th h s hs
    have hth : th = (generate_quote_tweet oracle).2.2 := by rw [h]
    have := generate_quote_loop_thread_spec oracle 3 0 s (hth ▸ hs)
    exact ⟨this.2.1, this.2.2⟩
  · intro h
    exact generate_quote_loop_sentinel oracle 3 0 h
  · intro raw a t th sec h hsec hblank
    unfold generate_quote_attempt at h
    simp only [] at h
    split at h
    · exact absurd h (by simp)
    split at h
    · exact absurd h (by simp)
    split at h
    · exact absurd h (by simp)
    rename_i afterThread hthr
    rw [hsec] at hthr
    simp only [Option.some.injEq] at hthr
    subst hthr
    split at h
    · exact absurd h (by simp)
    split at h
    · exact absurd h (by simp)
    simp only [Option.some.injEq, Prod.mk.injEq] at h
    obtain ⟨-, -, hth⟩ := h
    rw [← hth]
    rw [List.filter_eq_nil_iff]
    intro ln hln
    have := List.all_eq_true.mp hblank ln hln
    simp only [decide_eq_true_eq] at this
    simp [this]
  · intro raw h
    unfold generate_quote_attempt
    simp only []
    split
    · rfl
    split
    · rfl
    rw [h]

theorem C10_thread_never_blank_witness :
    generate_quote_tweet
        (fun _ =>
          some "### Analysis ###\nA\n### Tweet ###\nok\n### Thread ###\ns1") =
      (some "A", some "ok", ["s1"]) ∧ ("s1" : String) ≠ "" :=
  ⟨by decide,
    ((C10_thread_never_blank
        (fun _ =>
          some "### Analysis ###\nA\n### Tweet ###\nok\n### Thread ###\ns1")).1
      "A" "ok" ["s1"] (by decide) "s1" (by decide)).1⟩

/-- Claim C8: `decide_quote_or_reply` returns `false` (reply) whenever the
oracle call throws, the response lacks the `### Decision ###` delimiter, or
the decision token differs case-insensitively from `"quote tweet"`; the
concrete response `"### Decision ###\nReply"` yields `false`; and the
operation returns `true` only when the stripped token lowercases to
`"quote tweet"`. -/
theorem C8_decide_mode_defaults_to_reply :
    decide_quote_or_reply none = false ∧
    (∀ raw, (pySplit (pyStrip raw) "### Decision ###")[1]? = none →
      decide_quote_or_reply (some raw) = false) ∧
    (∀ raw d, (pySplit (pyStrip raw) "### Decision ###")[1]? = some d →
      pyLower (pyStrip d) ≠ "quote tweet" →
      decide_quote_or_reply (some raw) = false) ∧
    decide_quote_or_reply (some "### Decision ###\nReply") = false ∧
    (∀ r, decide_quote_or_reply r = true →
      ∃ raw d, r = some raw ∧
        (pySplit (pyStrip raw) "### Decision ###")[1]? = some d ∧
        pyLower (pyStrip d) = "quote tweet") := by
  refine ⟨rfl, ?_, ?_, by decide, ?_⟩
  · intro raw h
    unfold decide_quote_or_reply
    simp only []
    rw [h]
  · intro raw d h hne
    unfold decide_quote_or_reply
    simp only []
    rw [h]
    simp [hne]
  · intro r h
    match r with
    | none => exact absurd h (by simp [decide_quote_or_reply])
    | some raw =>
      refine ⟨raw, ?_⟩
      unfold decide_quote_or_reply at h
      simp only [] at h
      split at h
      · exact absurd h (by simp)
      · rename_i d hd
        refine ⟨d, rfl, hd, by simpa using h⟩

theorem C8_decide_mode_defaults_to_reply_witness :
    decide_quote_or_reply (some "### Decision ###\nmaybe") = false :=
  C8_decide_mode_defaults_to_reply.2.2.1 "### Decision ###\nmaybe" "\nmaybe"
    (by decide) (by decide)

/-- Claim C7: for a non-empty batch of unprocessed candidates, a failed
selection oracle call, a declined answer (`"none"`), or an answer equal to
the string form of no candidate identifier in the batch yields no selected
candidate, and the cycle then reaches the sleep step having posted nothing
and left the store unchanged; a candidate is selected only when the
oracle's answer equals `toString` of its identifier (the comparison is
string-based). -/
theorem C7_selection_soft_failure :
    select_tweet none = none ∧
    (∀ raw ans, (pySplit (pyStrip raw) "### Response ###")[1]? = some ans →
      pyLower (pyStrip ans) = "none" → select_tweet (some raw) = none) ∧
    (∀ (fetched : List Tweet) (store : List Nat) (resp : Option String),
      fetched.filter (fun t => t.tweet_id ∉ store) ≠ [] →
      (select_tweet resp = none ∨
        ∀ t ∈ fetched.filter (fun t => t.tweet_id ∉ store),
          select_tweet resp ≠ some (toString t.tweet_id)) →
      (process_fetched_tweets fetched store resp).1 = none) ∧
    (∀ (fetched : List Tweet) (store : List Nat) (resp : Option String) t,
      (process_fetched_tweets fetched store resp).1 = some t →
      t ∈ fetched.filter (fun t => t.tweet_id ∉ store) ∧
      select_tweet resp = some (toString t.tweet_id)) ∧
    (∀ (env : CycleEnv) (store : List Nat) (fetched : List Tweet),
      env.fetch = .ok fetched → fetched ≠ [] →
      (process_fetched_tweets fetched store env.selectResp).1 = none →
      (cycle env store).slept = true ∧ (cycle env store).calls = [] ∧
      (cycle env store).store = store) := by
  refine ⟨rfl, ?_, ?_, ?_, ?_⟩
  · intro raw ans h hlow
    show parse_analysis_response raw = none
    unfold parse_analysis_response
    simp only []
    split
    · rfl
    rw [h]
    simp [hlow]
  · intro fetched store resp hne hsel
    unfold process_fetched_tweets
    simp only []
    rw [if_neg (by simpa [List.isEmpty_iff] using hne)]
    rcases hsel with hnone | hnomatch
    · rw [hnone]
    · rcases hs : select_tweet resp with _ | sid
      · rfl
      · simp only []
        split
        · rfl
        rw [List.find?_eq_none.mpr]
        intro t ht
        have := hnomatch t ht
        rw [hs] at this
        simp only [ne_eq, Option.some.injEq] at this
        simpa using fun he => this he.symm
  · intro fetched store resp t h
    unfold process_fetched_tweets at h
    simp only [] at h
    split at h
    · exact absurd h (by simp)
    split at h
    · exact absurd h (by simp)
    rename_i sid hsid
    split at h
    · exact absurd h (by simp)
    simp only [] at h
    refine ⟨List.mem_of_find?_eq_some h, ?_⟩
    have := List.find?_some h
    simp only [decide_eq_true_eq] at this
    rw [hsid, this]
  · intro env store fetched hfetch hne hnosel
    unfold cycle
    rw [hfetch]
    simp only []
    rw [if_neg (by simpa [List.isEmpty_iff] using hne)]
    rw [show handle_selected_tweet env
        (process_fetched_tweets fetched store env.selectResp).1 store =
        .ok (store, [], false) by rw [hnosel]; rfl]
    exact ⟨rfl, rfl, rfl⟩

theorem C7_selection_soft_failure_witness :
    (process_fetched_tweets [sampleTweet] [] none).1 = none :=
  C7_selection_soft_failure.2.2.1 [sampleTweet] [] none (by decide)
    (Or.inl rfl)

/-- Claim C3, counterexample: in the iteration whose fetch returns no
candidates, the `continue` at bot.py line 113 restarts the loop without
reaching the sleep statement, so the claimed sleep does not happen. -/
theorem C3_counterexample_empty_fetch_skips_sleep :
    (cycle envEmptyFetch []).slept = false := rfl

/-- Claim C3 (amended): in every iteration in which the fetch returns a
non-empty candidate list or raises — including iterations in which all
fetched candidates are dropped by the deduplication filter or the
selection returns none — the scheduler reaches the jittered sleep before
the next fetch; when the fetch returns no candidates the loop instead
restarts immediately via `continue`, skipping the sleep. -/
theorem C3_sleep_before_next_fetch_amended (env : CycleEnv)
    (store : List Nat) (h : ∀ l, env.fetch = .ok l → l ≠ []) :
    (cycle env store).slept = true := by
  unfold cycle
  rcases henv : env.fetch with e | l
  · rfl
  · have hl : l.isEmpty = false := by
      simpa [List.isEmpty_iff] using h l henv
    rcases hh : handle_selected_tweet env
        (process_fetched_tweets l store env.selectResp).1 store with e2 | out
    · simp [hl, hh]
    · simp [hl, hh]

theorem C3_sleep_before_next_fetch_amended_witness :
    (cycle envOneTweet []).slept = true :=
  C3_sleep_before_next_fetch_amended envOneTweet []
    (fun l hl => by
      have h2 := Except.ok.inj hl
      rw [← h2]
      simp)

theorem handle_selected_tweet_store_spec (env : CycleEnv)
    (sel : Option Tweet) (store : List Nat) :
    ∀ out, handle_selected_tweet env sel store = .ok out →
      (out.2.2 = true →
        ∃ t, sel = some t ∧ out.1 = markSeen store t.tweet_id) ∧
      (out.2.2 = false → out.1 = store) := by
  intro out h
  cases sel with
  | none =>
    have hout : (⟨store, [], false⟩ : List Nat × List TweetCall × Bool) = out := by
      have : handle_selected_tweet env none store = .ok (store, [], false) := rfl
      rw [this] at h
      exact Except.ok.inj h
    subst hout
    exact ⟨fun ht => absurd ht (by simp), fun _ => rfl⟩
  | some tweet =>
    rcases hdec : decide_quote_or_reply env.decideResp with _ | _
    · -- reply path
      unfold handle_selected_tweet at h
      simp only [hdec, Bool.false_eq_true, if_false] at h
      rcases hg : (generate_reply env.genResps).2 with _ | txt <;>
        rw [hg] at h
      · simp only [] at h
        have hout := Except.ok.inj h
        subst hout
        exact ⟨fun ht => absurd ht (by simp), fun _ => rfl⟩
      · simp only [] at h
        by_cases htxt : txt = ""
        · rw [if_pos htxt] at h
          have hout := Except.ok.inj h
          subst hout
          exact ⟨fun ht => absurd ht (by simp), fun _ => rfl⟩
        · rw [if_neg htxt] at h
          rcases hexn : env.postExn with _ | _ <;> rw [hexn] at h
          · simp only [Bool.false_eq_true, if_false] at h
            rcases hpost : (post_reply env.postEnv tweet.tweet_id txt).1
                with _ | pr <;> rw [hpost] at h
            · have hout := Except.ok.inj h
              subst hout
              exact ⟨fun ht => absurd ht (by simp), fun _ => rfl⟩
            · have hout := Except.ok.inj h
              subst hout
              exact ⟨fun _ => ⟨tweet, rfl, rfl⟩,
                fun hf => absurd hf (by simp)⟩
          · simp only [if_true] at h
            exact absurd h (by simp)
    · -- quote path
      unfold handle_selected_tweet at h
      simp only [hdec, if_true] at h
      rcases hg : (generate_quote_tweet env.genResps).2.1 with _ | txt <;>
        rw [hg] at h
      · simp only [] at h
        have hout := Except.ok.inj h
        subst hout
        exact ⟨fun ht => absurd ht (by simp), fun _ => rfl⟩
      · simp only [] at h
        by_cases htxt : txt = ""
        · rw [if_pos htxt] at h
          have hout := Except.ok.inj h
          subst hout
          exact ⟨fun ht => absurd ht (by simp), fun _ => rfl⟩
        · rw [if_neg htxt] at h
          rcases hexn : env.postExn with _ | _ <;> rw [hexn] at h
          · simp only [Bool.false_eq_true, if_false] at h
            rcases hpost : (post_quote_tweet env.postEnv tweet.tweet_id txt
                (generate_quote_tweet env.genResps).2.2).1
                with _ | pr <;> rw [hpost] at h
            · have hout := Except.ok.inj h
              subst hout
              exact ⟨fun ht => absurd ht (by simp), fun _ => rfl⟩
            · have hout := Except.ok.inj h
              subst hout
              exact ⟨fun _ => ⟨tweet, rfl, rfl⟩,
                fun hf => absurd hf (by simp)⟩
          · simp only [if_true] at h
            exact absurd h (by simp)

/-- Claim C5: the deduplication store is mutated only after a successful
post: the selected candidate's identifier is added exactly when the checked
publish result is truthy, and the store is unchanged when no candidate is
selected, when the publish result is falsy (generation failure, empty text
or publish failure all give a falsy result), or when an exception is caught
at the cycle boundary. -/
theorem C5_store_mutated_only_on_success (env : CycleEnv)
    (store : List Nat) :
    ((cycle env store).postSucceeded = true →
      ∃ t, (cycle env store).selected = some t ∧
        (cycle env store).store = markSeen store t.tweet_id) ∧
    ((cycle env store).postSucceeded = false →
      (cycle env store).store = store) ∧
    ((cycle env store).selected = none → (cycle env store).store = store) ∧
    ((cycle env store).caughtExn = true →
      (cycle env store).store = store) := by
  unfold cycle
  rcases henv : env.fetch with e | l
  · exact ⟨fun ht => absurd ht (by simp), fun _ => rfl, fun _ => rfl,
      fun _ => rfl⟩
  · simp only []
    by_cases hemp : l.isEmpty = true
    · rw [if_pos hemp]
      exact ⟨fun ht => absurd ht (by simp), fun _ => rfl, fun _ => rfl,
        fun _ => rfl⟩
    · rw [if_neg hemp]
      rcases hh : handle_selected_tweet env
          (process_fetched_tweets l store env.selectResp).1 store
          with e2 | out
      · exact ⟨fun ht => absurd ht (by simp), fun _ => rfl, fun _ => rfl,
          fun _ => rfl⟩
      · obtain ⟨hsucc, hfail⟩ :=
          handle_selected_tweet_store_spec env
            (process_fetched_tweets l store env.selectResp).1 store out hh
        refine ⟨?_, ?_, ?_, ?_⟩
        · intro ht
          simp only [] at ht
          obtain ⟨t, hsel, hst⟩ := hsucc ht
          exact ⟨t, hsel, hst⟩
        · intro hf
          simp only [] at hf
          exact hfail hf
        · intro hsel
          simp only [] at hsel
          rcases hb : out.2.2 with _ | _
          · exact hfail hb
          · obtain ⟨t, hsome, -⟩ := hsucc hb
            rw [hsel] at hsome
            exact absurd hsome (by simp)
        · intro hc
          exact absurd hc (by simp)

theorem C5_store_mutated_only_on_success_witness :
    (cycle envOneTweet []).store = [] :=
  (C5_store_mutated_only_on_success envOneTweet []).2.1 rfl

/-- Claim C6: every modelled exception escaping steps 1-5 of a cycle
(fetch raising, or an exception escaping the publish call) is caught at the
cycle boundary, the cycle is then a no-op on the store and still reaches
the sleep, and the loop performs every scheduled iteration — it stops only
when the external input stream ends (process interruption). -/
theorem C6_cycle_exceptions_contained :
    (∀ (envs : List CycleEnv) (store : List Nat),
      (main_cycle envs store).length = envs.length) ∧
    (∀ (env : CycleEnv) (store : List Nat), env.fetch = .error () →
      (cycle env store).caughtExn = true) ∧
    (∀ (env : CycleEnv) (store : List Nat),
      (cycle env store).caughtExn = true →
      (cycle env store).store = store ∧ (cycle env store).slept = true) ∧
    (∀ (env : CycleEnv) (store : List Nat), env.postExn = true →
      (cycle env store).caughtExn = true ∨ (cycle env store).calls = []) := by
  refine ⟨?_, ?_, ?_, ?_⟩
  · intro envs
    induction envs with
    | nil => intro store; rfl
    | cons e rest ih =>
      intro store
      simp only [main_cycle, List.length_cons, ih]
  · intro env store h
    rw [cycle_eq_fetch_error env store h]
  · intro env store h
    rcases henv : env.fetch with e | l
    · cases e
      rw [cycle_eq_fetch_error env store henv]
      exact ⟨rfl, rfl⟩
    · rcases hemp : l.isEmpty with _ | _
      · rcases hh : handle_selected_tweet env
            (process_fetched_tweets l store env.selectResp).1 store
            with e2 | out
        · cases e2
          rw [cycle_eq_handle_error env store l henv hemp hh]
          exact ⟨rfl, rfl⟩
        · rw [cycle_eq_handle_ok env store l out henv hemp hh] at h
          exact absurd h (by simp)
      · rw [cycle_eq_fetch_empty env store l henv hemp] at h
        exact absurd h (by simp)
  · intro env store hexn
    rcases henv : env.fetch with e | l
    · cases e
      rw [cycle_eq_fetch_error env store henv]
      exact Or.inl rfl
    · rcases hemp : l.isEmpty with _ | _
      · rcases hh : handle_selected_tweet env
            (process_fetched_tweets l store env.selectResp).1 store
            with e2 | out
        · cases e2
          rw [cycle_eq_handle_error env store l henv hemp hh]
          exact Or.inl rfl
        · right
          rw [cycle_eq_handle_ok env store l out henv hemp hh]
          show out.2.1 = []
          rcases hsel : (process_fetched_tweets l store env.selectResp).1
              with _ | tweet
          · rw [hsel] at hh
            have hout : out = (store, [], false) := (Except.ok.inj hh).symm
            rw [hout]
          · rw [hsel] at hh
            unfold handle_selected_tweet at hh
            simp only [hexn] at hh
            rcases hdec : decide_quote_or_reply env.decideResp
                with _ | _ <;> simp only [hdec, Bool.false_eq_true,
                  if_false, if_true] at hh
            · rcases hg : (generate_reply env.genResps).2 with _ | txt <;>
                rw [hg] at hh
              · have hout : out = (store, [], false) :=
                  (Except.ok.inj hh).symm
                rw [hout]
              · simp only [] at hh
                by_cases htxt : txt = ""
                · rw [if_pos htxt] at hh
                  have hout : out = (store, [], false) :=
                    (Except.ok.inj hh).symm
                  rw [hout]
                · rw [if_neg htxt] at hh
                  exact absurd hh (by simp)
            · rcases hg : (generate_quote_tweet env.genResps).2.1
                  with _ | txt <;> rw [hg] at hh
              · have hout : out = (store, [], false) :=
                  (Except.ok.inj hh).symm
                rw [hout]
              · simp only [] at hh
                by_cases htxt : txt = ""
                · rw [if_pos htxt] at hh
                  have hout : out = (store, [], false) :=
                    (Except.ok.inj hh).symm
                  rw [hout]
                · rw [if_neg htxt] at hh
                  exact absurd hh (by simp)
      · rw [cycle_eq_fetch_empty env store l henv hemp]
        exact Or.inr rfl

theorem C6_cycle_exceptions_contained_witness :
    (cycle envFetchErr []).store = [] :=
  (C6_cycle_exceptions_contained.2.2.1 envFetchErr []
    (C6_cycle_exceptions_contained.2.1 envFetchErr [] rfl)).1

/-- Claim C9: for a base cycle length of 100 and any jitter value in
[-0.10, 0.10], the computed wait `100 + int(100 * variance)` lies within
[90, 110] (hence stays positive). -/
theorem C9_jittered_wait_bounds (variance : ℚ)
    (h1 : -(1/10) ≤ variance) (h2 : variance ≤ 1/10) :
    90 ≤ cycle_wait_time 100 variance ∧
      cycle_wait_time 100 variance ≤ 110 := by
  unfold cycle_wait_time pyInt
  have hle : ((100 : ℤ) : ℚ) * variance ≤ 10 := by
    push_cast
    linarith
  have hge : (-10 : ℚ) ≤ ((100 : ℤ) : ℚ) * variance := by
    push_cast
    linarith
  by_cases hpos : (0 : ℚ) ≤ ((100 : ℤ) : ℚ) * variance
  · rw [if_pos hpos]
    have hub : ⌊((100 : ℤ) : ℚ) * variance⌋ ≤ 10 := by
      have := (Int.floor_le (((100 : ℤ) : ℚ) * variance)).trans hle
      exact_mod_cast this
    have hlb : (0 : ℤ) ≤ ⌊((100 : ℤ) : ℚ) * variance⌋ :=
      Int.floor_nonneg.mpr hpos
    omega
  · rw [if_neg hpos]
    have hub : ⌈((100 : ℤ) : ℚ) * variance⌉ ≤ 0 :=
      Int.ceil_le.mpr (by
        have hneg := lt_of_not_le hpos
        push_cast at hneg ⊢
        linarith)
    have hlb : (-10 : ℤ) ≤ ⌈((100 : ℤ) : ℚ) * variance⌉ := by
      have := hge.trans (Int.le_ceil (((100 : ℤ) : ℚ) * variance))
      exact_mod_cast this
    omega

theorem C9_jittered_wait_bounds_witness :
    90 ≤ cycle_wait_time 100 (1/10) ∧ cycle_wait_time 100 (1/10) ≤ 110 :=
  C9_jittered_wait_bounds (1/10) (by norm_num) (by norm_num)

theorem C2_post_quote_tweet_behaviour_witness :
    (post_quote_tweet (fun _ => none) 7 "m" ["s"]).1 = none :=
  ((C2_post_quote_tweet_behaviour (fun _ => none) 7 "m" ["s"]
      (fun _ id h => Option.noConfusion h)).1
    (fun i _ => rfl)).1
